import Mathlib

/-
Shallow embedding of src/src/gpt_reviewer/__main__.py.

The program is a linear pipeline: read a file and prefix each line with its
1-based number (get_file), send the numbered content to a remote chat service
(get_review), parse the reply as XML and interpolate it into an HTML template
(add_content_to_html), and write the result to <output_dir>/code_review.html
(generate_report).  main sequences the steps; the __main__ block parses the
CLI flags and adjusts the logger level for the verbose flag.

Library calls are modelled explicitly:
  - the file system is a map from paths to optional contents plus a directory
    predicate (FS below); os.path.normpath is an uninterpreted parameter;
  - xml.etree.ElementTree.Element is the Element tree below; ET.fromstring is
    an uninterpreted parameter returning Except (an exception on parse error);
  - Element.find returns the first direct child with the given tag, and
    Element iteration enumerates the direct children, as in ElementTree;
  - Python's f-string rendering of None is the literal string "None" (pyStr);
  - file.readlines() splits the content after each newline character, keeping
    the newline, with a final fragment kept without one (readlines);
  - the OpenAI chat completion is an uninterpreted oracle from the request
    content to the reply text; main counts how many times it is invoked;
  - the HTML template file shipped with the program is passed as a string.
-/

namespace GptReviewer

/-- Exceptions the pipeline can raise. -/
inductive PyError where
  | fileNotFound (path : String)
  | typeError
  | attrError
  | parseError (msg : String)
  deriving Repr, DecidableEq

/-- Python f-string rendering of an optional string: None prints as "None". -/
def pyStr : Option String → String
  | some s => s
  | none => "None"

/-- xml.etree.ElementTree.Element: a tag, the optional text before the first
child, and the list of direct children. -/
inductive Element where
  | mk (tag : String) (text : Option String) (children : List Element)

/-- Tag of an element. -/
def Element.tag : Element → String
  | .mk t _ _ => t

/-- Text of an element (None for an empty element). -/
def Element.text : Element → Option String
  | .mk _ x _ => x

/-- Direct children of an element, in document order. -/
def Element.children : Element → List Element
  | .mk _ _ c => c

/-- Element.find: first direct child with the given tag, if any. -/
def pyFind (e : Element) (tag : String) : Option Element :=
  e.children.find? (fun c => c.tag == tag)

/-- The file system state: regular files (path to content) and directories. -/
structure FS where
  files : String → Option String
  dirs : String → Bool

/-- os.path.isfile. -/
def isfile (fs : FS) (p : String) : Bool := (fs.files p).isSome

/-- os.path.exists: true for a regular file or a directory. -/
def pathExists (fs : FS) (p : String) : Bool :=
  fs.dirs p || (fs.files p).isSome

/-- os.makedirs: afterwards the directory exists. -/
def makedirs (fs : FS) (p : String) : FS :=
  { fs with dirs := fun q => if q = p then true else fs.dirs q }

/-- open(p, 'w') followed by file.write(c): (over)writes the file at p. -/
def writeFile (fs : FS) (p c : String) : FS :=
  { fs with files := fun q => if q = p then some c else fs.files q }

/-- os.path.join for a directory and a relative file name. -/
def joinPath (a b : String) : String := a ++ "/" ++ b

/-- Helper for readlines: split after each newline, keeping the newline;
acc holds the current line read so far, in reverse. -/
def splitLinesAux : List Char → List Char → List String
  | [], [] => []
  | [], acc => [String.mk acc.reverse]
  | c :: rest, acc =>
    if c = '\n' then String.mk (acc.reverse ++ ['\n']) :: splitLinesAux rest []
    else splitLinesAux rest (c :: acc)

/-- file.readlines(): the lines of s, each keeping its trailing newline; a
final fragment without a newline is kept as a last line. -/
def readlines (s : String) : List String := splitLinesAux s.data []

/-- Python str.join with an empty separator: concatenation. -/
def concatAll : List String → String
  | [] => ""
  | s :: rest => s ++ concatAll rest

/-- The generator (f"\x7bi + 1\x7d: \x7bline\x7d" for i, line in enumerate(lines)),
with i the running index. -/
def numberLines : Nat → List String → List String
  | _, [] => []
  | i, line :: rest => (Nat.repr (i + 1) ++ ": " ++ line) :: numberLines (i + 1) rest

/-- get_file: normalize the path, fail with FileNotFoundError unless it is a
regular file, else return the content's lines joined with 1-based
line-number labels. -/
def get_file (normpath : String → String) (fs : FS) (file_path : String) :
    Except PyError String :=
  let normalized_path := normpath file_path
  match fs.files normalized_path with
  | none => .error (.fileNotFound normalized_path)
  | some content => .ok (concatAll (numberLines 0 (readlines content)))

/-- One observation or suggestion list item: f"<li>\x7be.text\x7d</li>". -/
def sectionItem (e : Element) : String := "<li>" ++ pyStr e.text ++ "</li>"

/-- The body of an observations or suggestions list. -/
def renderSection (items : List Element) : String :=
  concatAll (items.map sectionItem)

/-- One comment list item:
f"<li><strong>\x7blocation\x7d:</strong> \x7bfeedback\x7d</li>". -/
def commentItem (loc fb : Element) : String :=
  "<li><strong>" ++ pyStr loc.text ++ ":</strong> " ++ pyStr fb.text ++ "</li>"

/-- The body of the comments loop for one comment: comment.find('Location').text
raises AttributeError when the child is absent, likewise for 'Feedback'. -/
def renderComment (c : Element) : Except PyError String :=
  match pyFind c "Location" with
  | none => .error .attrError
  | some loc =>
    match pyFind c "Feedback" with
    | none => .error .attrError
    | some fb => .ok (commentItem loc fb)

/-- The comments loop: renders each comment in order, stopping at the first
failure. -/
def renderComments : List Element → Except PyError String
  | [] => .ok ""
  | c :: rest =>
    match renderComment c with
    | .error e => .error e
    | .ok item =>
      match renderComments rest with
      | .error e => .error e
      | .ok s => .ok (item ++ s)

/-- add_content_to_html: append the three sections and the closing fragment to
the template.  Iterating root.find(tag) raises TypeError when the group is
absent (for ... in None); a comment missing a child raises AttributeError. -/
def add_content_to_html (html_template : String) (root : Element) :
    Except PyError String :=
  match pyFind root "GeneralObservations" with
  | none => .error .typeError
  | some gen =>
    match pyFind root "SpecificComments" with
    | none => .error .typeError
    | some spec =>
      match renderComments spec.children with
      | .error e => .error e
      | .ok commentsHtml =>
        match pyFind root "ImprovementSuggestions" with
        | none => .error .typeError
        | some imp =>
          .ok (html_template
            ++ "<h2>General Observations</h2><ul>" ++ renderSection gen.children
            ++ "</ul>"
            ++ "<h2>Specific Comments</h2><ul>" ++ commentsHtml ++ "</ul>"
            ++ "<h2>Improvement Suggestions</h2><ul>"
            ++ renderSection imp.children ++ "</ul>"
            ++ "</div></body></html>")

/-- generate_report: parse the review (ET.fromstring, modelled by the parse
parameter), render it against the template, then create the output directory
if absent and write <output_dir>/code_review.html.  Returns the file system
after the call and the outcome; on an exception the file system is unchanged. -/
def generate_report (parse : String → Except PyError Element)
    (html_template : String) (review : String) (output_dir : String)
    (fs : FS) : FS × Except PyError Unit :=
  match parse review with
  | .error e => (fs, .error e)
  | .ok root =>
    match add_content_to_html html_template root with
    | .error e => (fs, .error e)
    | .ok final_report =>
      let fs1 := if pathExists fs output_dir then fs else makedirs fs output_dir
      let output_file := joinPath output_dir "code_review.html"
      (writeFile fs1 output_file final_report, .ok ())

/-- Result of one run of main: the outcome, the final file system, and how
many chat-completion requests were sent. -/
structure RunResult where
  outcome : Except PyError Unit
  fs : FS
  netCalls : Nat

/-- main: create the client, load the file, request the review (one network
call, modelled by the reviewOf oracle), generate the report.  An exception in
get_file aborts before any network call. -/
def main (normpath : String → String) (parse : String → Except PyError Element)
    (reviewOf : String → String) (html_template : String) (fs : FS)
    (input_file output_dir : String) : RunResult :=
  match get_file normpath fs input_file with
  | .error e => ⟨.error e, fs, 0⟩
  | .ok file_content =>
    let review := reviewOf file_content
    match generate_report parse html_template review output_dir fs with
    | (fs2, outcome) => ⟨outcome, fs2, 1⟩

/-- Logger levels relevant to the __main__ block. -/
inductive LogLevel where
  | info
  | debug
  deriving Repr, DecidableEq

/-- The __main__ block after argument parsing: the verbose flag only raises the
logger level to DEBUG; main is called with the input file and output path. -/
def cliRun (verbose : Bool) (normpath : String → String)
    (parse : String → Except PyError Element) (reviewOf : String → String)
    (html_template : String) (fs : FS) (input_file output_dir : String) :
    LogLevel × RunResult :=
  let level := if verbose then LogLevel.debug else LogLevel.info
  (level, main normpath parse reviewOf html_template fs input_file output_dir)

/-- Specification-side shape of a readlines result: every line except possibly
the last ends with its only newline, and a last line may lack one. -/
inductive LinesWF : List String → Prop
  | nil : LinesWF []
  | last (l : String) : l.data ≠ [] → '\n' ∉ l.data → LinesWF [l]
  | cons (l : String) (L : List String) (ds : List Char) :
      l.data = ds ++ ['\n'] → '\n' ∉ ds → LinesWF L → LinesWF (l :: L)

/-- Specification-side operation: drop the first n characters of a string. -/
def stripDrop (s : String) (n : Nat) : String := String.mk (s.data.drop n)

/-- Specification-side operation: remove the line-number label from each line
of a numbered listing, i being the running 0-based index. -/
def stripAll : Nat → List String → List String
  | _, [] => []
  | i, l :: ls => stripDrop l (Nat.repr (i + 1) ++ ": ").length :: stripAll (i + 1) ls

/-! Concrete data used to evaluate the pipeline on closed inputs. -/

/-- A file system holding one file in.txt with lines "a" and "b". -/
def fsA : FS :=
  { files := fun p => if p = "in.txt" then some "a\nb\n" else none
    dirs := fun _ => false }

/-- An empty file system. -/
def fsEmpty : FS := { files := fun _ => none, dirs := fun _ => false }

/-- A Location element with text. -/
def locE : Element := ⟨"Location", some "line 3", []⟩

/-- A Feedback element with text. -/
def fbE : Element := ⟨"Feedback", some "fix this", []⟩

/-- A comment with both required children. -/
def commentE : Element := ⟨"Comment", none, [locE, fbE]⟩

/-- An observation with text. -/
def obsA : Element := ⟨"Observation", some "Good naming", []⟩

/-- An empty observation (no text). -/
def obsNone : Element := ⟨"Observation", none, []⟩

/-- A suggestion with text. -/
def sugA : Element := ⟨"Suggestion", some "Add tests", []⟩

/-- A Location element without text. -/
def locNone : Element := ⟨"Location", none, []⟩

/-- A comment whose Location element is empty. -/
def commentNoneLoc : Element := ⟨"Comment", none, [locNone, fbE]⟩

/-- A comment missing its Location child. -/
def commentBad : Element := ⟨"Comment", none, [fbE]⟩

/-- A GeneralObservations group with one observation. -/
def genA : Element := ⟨"GeneralObservations", none, [obsA]⟩

/-- A SpecificComments group with one comment. -/
def specA : Element := ⟨"SpecificComments", none, [commentE]⟩

/-- An ImprovementSuggestions group with one suggestion. -/
def impA : Element := ⟨"ImprovementSuggestions", none, [sugA]⟩

/-- A GeneralObservations group with one empty observation. -/
def genN : Element := ⟨"GeneralObservations", none, [obsNone]⟩

/-- A SpecificComments group whose comment has an empty Location. -/
def specN : Element := ⟨"SpecificComments", none, [commentNoneLoc]⟩

/-- A review document with one observation, one comment, one suggestion. -/
def rootA : Element := ⟨"CodeReview", none, [genA, specA, impA]⟩

/-- A second, different review document. -/
def rootB : Element :=
  ⟨"CodeReview", none,
    [⟨"GeneralObservations", none, [⟨"Observation", some "Better now", []⟩]⟩,
     ⟨"SpecificComments", none, []⟩,
     ⟨"ImprovementSuggestions", none, []⟩]⟩

/-- A review document whose comment is missing a required child. -/
def rootBad : Element :=
  ⟨"CodeReview", none,
    [⟨"GeneralObservations", none, [obsA]⟩,
     ⟨"SpecificComments", none, [commentBad]⟩,
     ⟨"ImprovementSuggestions", none, [sugA]⟩]⟩

/-- A review document missing the ImprovementSuggestions group. -/
def rootMiss : Element :=
  ⟨"CodeReview", none,
    [⟨"GeneralObservations", none, [obsA]⟩,
     ⟨"SpecificComments", none, []⟩]⟩

/-- A review document with an empty observation and an empty Location. -/
def rootNones : Element := ⟨"CodeReview", none, [genN, specN, impA]⟩

/-- A concrete stand-in for ET.fromstring on a handful of review strings. -/
def parseW (s : String) : Except PyError Element :=
  if s = "r1" then .ok rootA
  else if s = "r2" then .ok rootB
  else if s = "rbad" then .ok rootBad
  else if s = "rmiss" then .ok rootMiss
  else if s = "rnones" then .ok rootNones
  else .error (.parseError s)

/-! Lemmas about decimal digits: a line-number label never contains a
newline, so numbering cannot change where the output splits into lines. -/

theorem digitChar_ne_newline (m : Nat) : Nat.digitChar m ≠ '\n' := by
  by_cases h : m < 16
  · interval_cases m <;> decide
  · unfold Nat.digitChar
    repeat rw [if_neg (by omega)]
    decide

theorem toDigitsCore_ne_newline :
    ∀ (fuel n : Nat) (ds : List Char), '\n' ∉ ds →
      '\n' ∉ Nat.toDigitsCore 10 fuel n ds := by
  intro fuel
  induction fuel with
  | zero => intro n ds h; simpa [Nat.toDigitsCore] using h
  | succ f ih =>
    intro n ds h
    unfold Nat.toDigitsCore
    dsimp only
    split
    · intro hmem
      rcases List.mem_cons.mp hmem with h1 | h2
      · exact digitChar_ne_newline (n % 10) h1.symm
      · exact h h2
    · apply ih
      intro hmem
      rcases List.mem_cons.mp hmem with h1 | h2
      · exact digitChar_ne_newline (n % 10) h1.symm
      · exact h h2

theorem repr_ne_newline (n : Nat) : '\n' ∉ (Nat.repr n).data := by
  show '\n' ∉ Nat.toDigits 10 n
  exact toDigitsCore_ne_newline (n + 1) n [] (by simp)

theorem label_no_newline (i : Nat) : '\n' ∉ (Nat.repr (i + 1) ++ ": ").data := by
  rw [String.data_append]
  intro hm
  rcases List.mem_append.mp hm with h1 | h2
  · exact repr_ne_newline _ h1
  · exact absurd h2 (by decide)

/-! Lemmas about how readlines splits a string. -/

theorem splitLinesAux_complete :
    ∀ (ds cs acc : List Char), '\n' ∉ ds →
      splitLinesAux (ds ++ '\n' :: cs) acc =
        String.mk (acc.reverse ++ ds ++ ['\n']) :: splitLinesAux cs [] := by
  intro ds
  induction ds with
  | nil =>
    intro cs acc h
    simp [splitLinesAux]
  | cons d ds ih =>
    intro cs acc h
    have hd : d ≠ '\n' := fun e => h (by simp [e])
    have h' : '\n' ∉ ds := fun e => h (by simp [e])
    simp only [List.cons_append, splitLinesAux, if_neg hd]
    refine (ih cs (d :: acc) h').trans ?_
    congr 1
    exact String.ext (by simp)

theorem splitLinesAux_noNewline :
    ∀ (ds acc : List Char), '\n' ∉ ds → acc.reverse ++ ds ≠ [] →
      splitLinesAux ds acc = [String.mk (acc.reverse ++ ds)] := by
  intro ds
  induction ds with
  | nil =>
    intro acc h hne
    cases acc with
    | nil => simp at hne
    | cons a as => simp [splitLinesAux]
  | cons d ds ih =>
    intro acc h hne
    have hd : d ≠ '\n' := fun e => h (by simp [e])
    have h' : '\n' ∉ ds := fun e => h (by simp [e])
    simp only [splitLinesAux, if_neg hd]
    rw [ih (d :: acc) h' (by simp)]
    simp

theorem linesWF_splitLinesAux :
    ∀ (cs acc : List Char), '\n' ∉ acc → LinesWF (splitLinesAux cs acc) := by
  intro cs
  induction cs with
  | nil =>
    intro acc h
    cases acc with
    | nil => exact LinesWF.nil
    | cons a as =>
      exact LinesWF.last _ (by simp)
        (fun hm => h (List.mem_reverse.mp hm))
  | cons c cs ih =>
    intro acc h
    by_cases hc : c = '\n'
    · subst hc
      simp only [splitLinesAux, if_pos rfl]
      exact LinesWF.cons _ _ acc.reverse rfl
        (fun hm => h (List.mem_reverse.mp hm)) (ih [] (by simp))
    · simp only [splitLinesAux, if_neg hc]
      exact ih (c :: acc) (by
        intro hm
        rcases List.mem_cons.mp hm with h1 | h2
        · exact hc h1.symm
        · exact h h2)

theorem linesWF_readlines (s : String) : LinesWF (readlines s) :=
  linesWF_splitLinesAux s.data [] (by simp)

theorem concatAll_splitLinesAux :
    ∀ (cs acc : List Char),
      concatAll (splitLinesAux cs acc) = String.mk (acc.reverse ++ cs) := by
  intro cs
  induction cs with
  | nil =>
    intro acc
    cases acc with
    | nil => rfl
    | cons a as =>
      show String.mk (a :: as).reverse ++ "" = _
      rw [String.append_empty]
      exact String.ext (by simp)
  | cons c cs ih =>
    intro acc
    by_cases hc : c = '\n'
    · subst hc
      simp only [splitLinesAux, if_pos rfl]
      show String.mk (acc.reverse ++ ['\n']) ++ concatAll (splitLinesAux cs []) = _
      rw [ih []]
      exact String.ext (by simp)
    · simp only [splitLinesAux, if_neg hc]
      rw [ih (c :: acc)]
      exact String.ext (by simp)

theorem concatAll_readlines (s : String) : concatAll (readlines s) = s := by
  have h := concatAll_splitLinesAux s.data []
  simpa [readlines] using h

/-! The numbered listing: line structure, labels, and the round trip. -/

theorem readlines_numberLines :
    ∀ (L : List String), LinesWF L → ∀ (i : Nat),
      readlines (concatAll (numberLines i L)) = numberLines i L := by
  intro L hL
  induction hL with
  | nil => intro i; rfl
  | last l hne hnl =>
    intro i
    show readlines ((Nat.repr (i + 1) ++ ": " ++ l) ++ "") = _
    rw [String.append_empty]
    show splitLinesAux (Nat.repr (i + 1) ++ ": " ++ l).data [] = _
    have hno : '\n' ∉ (Nat.repr (i + 1) ++ ": ").data ++ l.data := by
      intro hm
      rcases List.mem_append.mp hm with h1 | h2
      · exact label_no_newline i h1
      · exact hnl h2
    have harg : (Nat.repr (i + 1) ++ ": " ++ l).data =
        (Nat.repr (i + 1) ++ ": ").data ++ l.data := by simp
    rw [harg,
      splitLinesAux_noNewline ((Nat.repr (i + 1) ++ ": ").data ++ l.data) [] hno
        (by simp [hne])]
    exact congrArg (fun x => [x]) (String.ext (by simp))
  | cons l L ds hdata hnl hLwf ih =>
    intro i
    have hno : '\n' ∉ (Nat.repr (i + 1) ++ ": ").data ++ ds := by
      intro hm
      rcases List.mem_append.mp hm with h1 | h2
      · exact label_no_newline i h1
      · exact hnl h2
    have hsplit := splitLinesAux_complete ((Nat.repr (i + 1) ++ ": ").data ++ ds)
      (concatAll (numberLines (i + 1) L)).data [] hno
    have harg : ((Nat.repr (i + 1) ++ ": " ++ l) ++ concatAll (numberLines (i + 1) L)).data =
        ((Nat.repr (i + 1) ++ ": ").data ++ ds) ++
          '\n' :: (concatAll (numberLines (i + 1) L)).data := by
      simp [hdata]
    show splitLinesAux
      ((Nat.repr (i + 1) ++ ": " ++ l) ++ concatAll (numberLines (i + 1) L)).data [] = _
    rw [harg, hsplit]
    congr 1
    · exact String.ext (by simp [hdata])
    · exact ih (i + 1)

theorem stripAll_numberLines : ∀ (L : List String) (i : Nat),
    stripAll i (numberLines i L) = L := by
  intro L
  induction L with
  | nil => intro i; rfl
  | cons l ls ih =>
    intro i
    show stripDrop (Nat.repr (i + 1) ++ ": " ++ l) (Nat.repr (i + 1) ++ ": ").length ::
      stripAll (i + 1) (numberLines (i + 1) ls) = l :: ls
    rw [ih (i + 1)]
    congr 1
    show String.mk (((Nat.repr (i + 1) ++ ": ").data ++ l.data).drop
      (Nat.repr (i + 1) ++ ": ").data.length) = l
    rw [List.drop_left]

theorem numberLines_length : ∀ (L : List String) (i : Nat),
    (numberLines i L).length = L.length := by
  intro L
  induction L with
  | nil => intro i; rfl
  | cons l ls ih => intro i; simp [numberLines, ih (i + 1)]

theorem numberLines_getD : ∀ (L : List String) (i j : Nat), j < L.length →
    (numberLines i L).getD j "" = Nat.repr (i + j + 1) ++ ": " ++ L.getD j "" := by
  intro L
  induction L with
  | nil => intro i j h; simp at h
  | cons l ls ih =>
    intro i j h
    cases j with
    | zero => simp [numberLines]
    | succ j =>
      have := ih (i + 1) j (by simpa using h)
      simpa [numberLines, Nat.add_assoc, Nat.add_comm, Nat.add_left_comm] using this

/-- C1: for an existing regular file, get_file returns the concatenation of
exactly N labelled lines, the i-th (0-based) being the string i+1 followed by
": " and the unchanged i-th original line, in original order. -/
theorem get_file_numbered_lines (normpath : String → String) (fs : FS)
    (p content : String) (h : fs.files (normpath p) = some content) :
    ∃ plines : List String,
      get_file normpath fs p = .ok (concatAll plines) ∧
      plines.length = (readlines content).length ∧
      ∀ i < (readlines content).length,
        plines.getD i "" = Nat.repr (i + 1) ++ ": " ++ (readlines content).getD i "" := by
  refine ⟨numberLines 0 (readlines content), ?_, numberLines_length _ 0, ?_⟩
  · simp [get_file, h]
  · intro i hi
    have hg := numberLines_getD (readlines content) 0 i hi
    simpa using hg

/-- Witness for C1 on the two-line file "a\nb\n". -/
theorem get_file_numbered_lines_witness :
    fsA.files (id "in.txt") = some "a\nb\n" ∧
    (∃ plines : List String,
      get_file id fsA "in.txt" = .ok (concatAll plines) ∧
      plines.length = (readlines "a\nb\n").length ∧
      ∀ i < (readlines "a\nb\n").length,
        plines.getD i "" = Nat.repr (i + 1) ++ ": " ++ (readlines "a\nb\n").getD i "") :=
  ⟨by decide, get_file_numbered_lines id fsA "in.txt" "a\nb\n" (by decide)⟩

/-- C9: splitting get_file's output into lines yields exactly the numbered
lines, and removing each label reconstructs the original content. -/
theorem get_file_roundtrip (normpath : String → String) (fs : FS)
    (p content out : String) (h : fs.files (normpath p) = some content)
    (hout : get_file normpath fs p = .ok out) :
    readlines out = numberLines 0 (readlines content) ∧
    concatAll (stripAll 0 (readlines out)) = content := by
  have hv : out = concatAll (numberLines 0 (readlines content)) := by
    simp [get_file, h] at hout
    exact hout.symm
  subst hv
  have h1 := readlines_numberLines (readlines content) (linesWF_readlines content) 0
  refine ⟨h1, ?_⟩
  rw [h1, stripAll_numberLines, concatAll_readlines]

/-- Witness for C9 on the two-line file "a\nb\n". -/
theorem get_file_roundtrip_witness :
    fsA.files (id "in.txt") = some "a\nb\n" ∧
    get_file id fsA "in.txt" = .ok "1: a\n2: b\n" ∧
    (readlines "1: a\n2: b\n" = numberLines 0 (readlines "a\nb\n") ∧
     concatAll (stripAll 0 (readlines "1: a\n2: b\n")) = "a\nb\n") :=
  ⟨by decide, by rfl,
    get_file_roundtrip id fsA "in.txt" "a\nb\n" "1: a\n2: b\n" (by decide) (by rfl)⟩

theorem renderComments_ok :
    ∀ (l : List Element),
      (∀ c ∈ l, ∃ lc fc, pyFind c "Location" = some lc ∧ pyFind c "Feedback" = some fc) →
      ∃ items : List String,
        renderComments l = .ok (concatAll items) ∧
        List.Forall₂ (fun c item => ∀ lc fc,
          pyFind c "Location" = some lc → pyFind c "Feedback" = some fc →
          item = commentItem lc fc) l items := by
  intro l
  induction l with
  | nil => exact fun _ => ⟨[], rfl, List.Forall₂.nil⟩
  | cons c rest ih =>
    intro h
    obtain ⟨lc, fc, hlc, hfc⟩ := h c (by simp)
    obtain ⟨items, hrest, hf⟩ := ih (fun d hd => h d (by simp [hd]))
    refine ⟨commentItem lc fc :: items, ?_, ?_⟩
    · simp [renderComments, renderComment, hlc, hfc, hrest, concatAll]
    · refine List.Forall₂.cons ?_ hf
      intro lc' fc' hlc' hfc'
      rw [hlc] at hlc'
      rw [hfc] at hfc'
      injection hlc' with e1
      injection hfc' with e2
      rw [← e1, ← e2]

theorem add_content_ok (t : String) (root gen spec imp : Element) (chtml : String)
    (hg : pyFind root "GeneralObservations" = some gen)
    (hs : pyFind root "SpecificComments" = some spec)
    (hi : pyFind root "ImprovementSuggestions" = some imp)
    (hc : renderComments spec.children = .ok chtml) :
    add_content_to_html t root = .ok (t
      ++ "<h2>General Observations</h2><ul>" ++ renderSection gen.children
      ++ "</ul>"
      ++ "<h2>Specific Comments</h2><ul>" ++ chtml ++ "</ul>"
      ++ "<h2>Improvement Suggestions</h2><ul>"
      ++ renderSection imp.children ++ "</ul>"
      ++ "</div></body></html>") := by
  simp [add_content_to_html, hg, hs, hi, hc]

theorem renderComments_error :
    ∀ (l : List Element) (c : Element), c ∈ l →
      (pyFind c "Location" = none ∨ pyFind c "Feedback" = none) →
      ∃ e, renderComments l = .error e := by
  intro l
  induction l with
  | nil => intro c hc; simp at hc
  | cons d rest ih =>
    intro c hc hbad
    rcases List.mem_cons.mp hc with h1 | h2
    · subst h1
      rcases hbad with hb | hb
      · exact ⟨.attrError, by simp [renderComments, renderComment, hb]⟩
      · cases hfl : pyFind c "Location" with
        | none => exact ⟨.attrError, by simp [renderComments, renderComment, hfl]⟩
        | some lc => exact ⟨.attrError, by simp [renderComments, renderComment, hfl, hb]⟩
    · obtain ⟨e, he⟩ := ih c h2 hbad
      cases hd : renderComment d with
      | error e2 => exact ⟨e2, by simp [renderComments, hd]⟩
      | ok item => exact ⟨e, by simp [renderComments, hd, he]⟩

theorem add_content_missing_group (t : String) (root : Element)
    (h : pyFind root "GeneralObservations" = none ∨
         pyFind root "SpecificComments" = none ∨
         pyFind root "ImprovementSuggestions" = none) :
    ∃ e, add_content_to_html t root = .error e := by
  cases hg : pyFind root "GeneralObservations" with
  | none => exact ⟨.typeError, by simp [add_content_to_html, hg]⟩
  | some gen =>
    cases hs : pyFind root "SpecificComments" with
    | none => exact ⟨.typeError, by simp [add_content_to_html, hg, hs]⟩
    | some spec =>
      cases hrc : renderComments spec.children with
      | error e => exact ⟨e, by simp [add_content_to_html, hg, hs, hrc]⟩
      | ok chtml =>
        cases hi : pyFind root "ImprovementSuggestions" with
        | none => exact ⟨.typeError, by simp [add_content_to_html, hg, hs, hrc, hi]⟩
        | some imp => rcases h with h | h | h <;> simp_all

theorem mem_concatAll_infix : ∀ (L : List String) (s : String), s ∈ L →
    s.data <:+: (concatAll L).data := by
  intro L
  induction L with
  | nil => intro s hs; simp at hs
  | cons x xs ih =>
    intro s hs
    rcases List.mem_cons.mp hs with h1 | h2
    · subst h1
      exact ⟨[], (concatAll xs).data, by simp [concatAll]⟩
    · obtain ⟨u, v, huv⟩ := ih s h2
      refine ⟨x.data ++ u, v, ?_⟩
      show x.data ++ u ++ s.data ++ v = (concatAll (x :: xs)).data
      simp only [concatAll, String.data_append, List.append_assoc]
      rw [← List.append_assoc u, huv]

theorem renderComments_item_infix :
    ∀ (l : List Element) (c : Element) (s item : String), c ∈ l →
      renderComment c = .ok item → renderComments l = .ok s →
      item.data <:+: s.data := by
  intro l
  induction l with
  | nil => intro c s item hc _ _; simp at hc
  | cons d rest ih =>
    intro c s item hc hrc hall
    cases hd : renderComment d with
    | error e => simp [renderComments, hd] at hall
    | ok itemd =>
      cases hrest : renderComments rest with
      | error e => simp [renderComments, hd, hrest] at hall
      | ok srest =>
        have hs : s = itemd ++ srest := by
          simp [renderComments, hd, hrest] at hall
          exact hall.symm
        subst hs
        rcases List.mem_cons.mp hc with h1 | h2
        · subst h1
          rw [hd] at hrc
          injection hrc with e1
          subst e1
          exact ⟨[], srest.data, by simp⟩
        · obtain ⟨u, v, huv⟩ := ih c srest item h2 hrc hrest
          refine ⟨itemd.data ++ u, v, ?_⟩
          show itemd.data ++ u ++ item.data ++ v = (itemd ++ srest).data
          simp only [String.data_append, List.append_assoc]
          rw [← List.append_assoc u, huv]

theorem commentItem_contains (loc fb : Element) :
    (pyStr loc.text).data <:+: (commentItem loc fb).data ∧
    (pyStr fb.text).data <:+: (commentItem loc fb).data := by
  constructor
  · exact ⟨"<li><strong>".data, (":</strong> " ++ pyStr fb.text ++ "</li>").data,
      by simp [commentItem]⟩
  · exact ⟨("<li><strong>" ++ pyStr loc.text ++ ":</strong> ").data, "</li>".data,
      by simp [commentItem]⟩

/-- C2: for a well-formed review document the rendered HTML has exactly G
observation items, C comment items and S suggestion items: one list item per
section child, the comment items pinned one-to-one to the comments, each
containing its location and feedback text. -/
theorem add_content_section_counts (t : String) (root gen spec imp : Element)
    (hg : pyFind root "GeneralObservations" = some gen)
    (hs : pyFind root "SpecificComments" = some spec)
    (hi : pyFind root "ImprovementSuggestions" = some imp)
    (hc : ∀ c ∈ spec.children, ∃ lc fc,
      pyFind c "Location" = some lc ∧ pyFind c "Feedback" = some fc) :
    ∃ obsItems comItems sugItems : List String,
      obsItems = gen.children.map (fun o => "<li>" ++ pyStr o.text ++ "</li>") ∧
      sugItems = imp.children.map (fun o => "<li>" ++ pyStr o.text ++ "</li>") ∧
      obsItems.length = gen.children.length ∧
      comItems.length = spec.children.length ∧
      sugItems.length = imp.children.length ∧
      List.Forall₂ (fun c item => ∀ lc fc,
        pyFind c "Location" = some lc → pyFind c "Feedback" = some fc →
        item = "<li><strong>" ++ pyStr lc.text ++ ":</strong> " ++ pyStr fc.text ++ "</li>" ∧
        (pyStr lc.text).data <:+: item.data ∧ (pyStr fc.text).data <:+: item.data)
        spec.children comItems ∧
      add_content_to_html t root = .ok (t
        ++ "<h2>General Observations</h2><ul>" ++ concatAll obsItems ++ "</ul>"
        ++ "<h2>Specific Comments</h2><ul>" ++ concatAll comItems ++ "</ul>"
        ++ "<h2>Improvement Suggestions</h2><ul>" ++ concatAll sugItems ++ "</ul>"
        ++ "</div></body></html>") := by
  obtain ⟨items, hrc, hf⟩ := renderComments_ok spec.children hc
  refine ⟨_, items, _, rfl, rfl, by simp, hf.length_eq.symm, by simp, ?_, ?_⟩
  · refine List.Forall₂.imp ?_ hf
    intro c item hitem lc fc hlc hfc
    have he := hitem lc fc hlc hfc
    refine ⟨he, ?_, ?_⟩
    · rw [he]
      exact (commentItem_contains lc fc).1
    · rw [he]
      exact (commentItem_contains lc fc).2
  · exact add_content_ok t root gen spec imp (concatAll items) hg hs hi hrc

/-- C7: the rendered HTML is exactly the template followed by the three
sections in fixed order and the closing fragment, every element text embedded
verbatim. -/
theorem add_content_exact_output (t : String) (root gen spec imp : Element)
    (hg : pyFind root "GeneralObservations" = some gen)
    (hs : pyFind root "SpecificComments" = some spec)
    (hi : pyFind root "ImprovementSuggestions" = some imp)
    (hc : ∀ c ∈ spec.children, ∃ lc fc,
      pyFind c "Location" = some lc ∧ pyFind c "Feedback" = some fc) :
    ∃ comItems : List String,
      List.Forall₂ (fun c item => ∀ lc fc,
        pyFind c "Location" = some lc → pyFind c "Feedback" = some fc →
        item = "<li><strong>" ++ pyStr lc.text ++ ":</strong> " ++ pyStr fc.text ++ "</li>")
        spec.children comItems ∧
      add_content_to_html t root = .ok (t
        ++ "<h2>General Observations</h2><ul>"
        ++ concatAll (gen.children.map (fun o => "<li>" ++ pyStr o.text ++ "</li>"))
        ++ "</ul>"
        ++ "<h2>Specific Comments</h2><ul>" ++ concatAll comItems ++ "</ul>"
        ++ "<h2>Improvement Suggestions</h2><ul>"
        ++ concatAll (imp.children.map (fun o => "<li>" ++ pyStr o.text ++ "</li>"))
        ++ "</ul>"
        ++ "</div></body></html>") := by
  obtain ⟨items, hrc, hf⟩ := renderComments_ok spec.children hc
  exact ⟨items, hf,
    add_content_ok t root gen spec imp (concatAll items) hg hs hi hrc⟩

/-- C5: a parsed review document missing one of the three section groups makes
report generation fail; the file system is left unchanged. -/
theorem generate_report_missing_section (parse : String → Except PyError Element)
    (t review output_dir : String) (fs : FS) (root : Element)
    (hp : parse review = .ok root)
    (h : pyFind root "GeneralObservations" = none ∨
         pyFind root "SpecificComments" = none ∨
         pyFind root "ImprovementSuggestions" = none) :
    ∃ e, generate_report parse t review output_dir fs = (fs, .error e) := by
  obtain ⟨e, he⟩ := add_content_missing_group t root h
  exact ⟨e, by simp [generate_report, hp, he]⟩

/-- Witness for C5 on a document missing ImprovementSuggestions. -/
theorem generate_report_missing_section_witness :
    (parseW "rmiss" = .ok rootMiss ∧
      pyFind rootMiss "ImprovementSuggestions" = none) ∧
    (∃ e, generate_report parseW "T" "rmiss" "out" fsEmpty = (fsEmpty, .error e)) :=
  ⟨⟨rfl, rfl⟩, generate_report_missing_section parseW "T" "rmiss" "out" fsEmpty
    rootMiss rfl (Or.inr (Or.inr rfl))⟩

/-- Witness for C2 on a document with one observation, one comment, one
suggestion. -/
theorem add_content_section_counts_witness :
    (pyFind rootA "GeneralObservations" = some genA ∧
     pyFind rootA "SpecificComments" = some specA ∧
     pyFind rootA "ImprovementSuggestions" = some impA ∧
     (∀ c ∈ specA.children, ∃ lc fc,
        pyFind c "Location" = some lc ∧ pyFind c "Feedback" = some fc)) ∧
    (∃ obsItems comItems sugItems : List String,
      obsItems = genA.children.map (fun o => "<li>" ++ pyStr o.text ++ "</li>") ∧
      sugItems = impA.children.map (fun o => "<li>" ++ pyStr o.text ++ "</li>") ∧
      obsItems.length = genA.children.length ∧
      comItems.length = specA.children.length ∧
      sugItems.length = impA.children.length ∧
      List.Forall₂ (fun c item => ∀ lc fc,
        pyFind c "Location" = some lc → pyFind c "Feedback" = some fc →
        item = "<li><strong>" ++ pyStr lc.text ++ ":</strong> " ++ pyStr fc.text ++ "</li>" ∧
        (pyStr lc.text).data <:+: item.data ∧ (pyStr fc.text).data <:+: item.data)
        specA.children comItems ∧
      add_content_to_html "T" rootA = .ok ("T"
        ++ "<h2>General Observations</h2><ul>" ++ concatAll obsItems ++ "</ul>"
        ++ "<h2>Specific Comments</h2><ul>" ++ concatAll comItems ++ "</ul>"
        ++ "<h2>Improvement Suggestions</h2><ul>" ++ concatAll sugItems ++ "</ul>"
        ++ "</div></body></html>")) := by
  have hcp : ∀ c ∈ specA.children, ∃ lc fc,
      pyFind c "Location" = some lc ∧ pyFind c "Feedback" = some fc := by
    intro c hcm
    simp [specA, Element.children] at hcm
    subst hcm
    exact ⟨locE, fbE, rfl, rfl⟩
  exact ⟨⟨rfl, rfl, rfl, hcp⟩,
    add_content_section_counts "T" rootA genA specA impA rfl rfl rfl hcp⟩

/-- Witness for C7 on the same document. -/
theorem add_content_exact_output_witness :
    (pyFind rootA "GeneralObservations" = some genA ∧
     pyFind rootA "SpecificComments" = some specA ∧
     pyFind rootA "ImprovementSuggestions" = some impA ∧
     (∀ c ∈ specA.children, ∃ lc fc,
        pyFind c "Location" = some lc ∧ pyFind c "Feedback" = some fc)) ∧
    (∃ comItems : List String,
      List.Forall₂ (fun c item => ∀ lc fc,
        pyFind c "Location" = some lc → pyFind c "Feedback" = some fc →
        item = "<li><strong>" ++ pyStr lc.text ++ ":</strong> " ++ pyStr fc.text ++ "</li>")
        specA.children comItems ∧
      add_content_to_html "T" rootA = .ok ("T"
        ++ "<h2>General Observations</h2><ul>"
        ++ concatAll (genA.children.map (fun o => "<li>" ++ pyStr o.text ++ "</li>"))
        ++ "</ul>"
        ++ "<h2>Specific Comments</h2><ul>" ++ concatAll comItems ++ "</ul>"
        ++ "<h2>Improvement Suggestions</h2><ul>"
        ++ concatAll (impA.children.map (fun o => "<li>" ++ pyStr o.text ++ "</li>"))
        ++ "</ul>"
        ++ "</div></body></html>")) := by
  have hcp : ∀ c ∈ specA.children, ∃ lc fc,
      pyFind c "Location" = some lc ∧ pyFind c "Feedback" = some fc := by
    intro c hcm
    simp [specA, Element.children] at hcm
    subst hcm
    exact ⟨locE, fbE, rfl, rfl⟩
  exact ⟨⟨rfl, rfl, rfl, hcp⟩,
    add_content_exact_output "T" rootA genA specA impA rfl rfl rfl hcp⟩

/-- C3: a malformed review document, either unparsable or with a comment
missing a required child, makes generate_report fail; the file system, and
with it any previous output file, is left unchanged. -/
theorem generate_report_malformed (parse : String → Except PyError Element)
    (t review output_dir : String) (fs : FS)
    (h : (∃ e, parse review = .error e) ∨
         (∃ root spec c, parse review = .ok root ∧
            pyFind root "SpecificComments" = some spec ∧ c ∈ spec.children ∧
            (pyFind c "Location" = none ∨ pyFind c "Feedback" = none))) :
    ∃ e, generate_report parse t review output_dir fs = (fs, .error e) := by
  rcases h with ⟨e, he⟩ | ⟨root, spec, c, hp, hs, hcm, hbad⟩
  · exact ⟨e, by simp [generate_report, he]⟩
  · cases hg : pyFind root "GeneralObservations" with
    | none => exact ⟨.typeError, by simp [generate_report, hp, add_content_to_html, hg]⟩
    | some gen =>
      obtain ⟨e, he⟩ := renderComments_error spec.children c hcm hbad
      exact ⟨e, by simp [generate_report, hp, add_content_to_html, hg, hs, he]⟩

/-- Witness for C3: an unparsable review and one with a comment missing its
Location child. -/
theorem generate_report_malformed_witness :
    (∃ e, parseW "not xml" = .error e) ∧
    (∃ e, generate_report parseW "T" "not xml" "out" fsEmpty = (fsEmpty, .error e)) ∧
    (parseW "rbad" = .ok rootBad ∧
      pyFind rootBad "SpecificComments" = some ⟨"SpecificComments", none, [commentBad]⟩ ∧
      commentBad ∈ (Element.mk "SpecificComments" none [commentBad]).children ∧
      pyFind commentBad "Location" = none) ∧
    (∃ e, generate_report parseW "T" "rbad" "out" fsEmpty = (fsEmpty, .error e)) := by
  refine ⟨⟨.parseError "not xml", rfl⟩, ?_, ⟨rfl, rfl, by simp [Element.children], rfl⟩, ?_⟩
  · exact generate_report_malformed parseW "T" "not xml" "out" fsEmpty
      (Or.inl ⟨.parseError "not xml", rfl⟩)
  · exact generate_report_malformed parseW "T" "rbad" "out" fsEmpty
      (Or.inr ⟨rootBad, ⟨"SpecificComments", none, [commentBad]⟩, commentBad,
        rfl, rfl, by simp [Element.children], Or.inl rfl⟩)

/-- C4: when the input path is not a regular file, main aborts with
FileNotFoundError before any network call and without touching the file
system. -/
theorem main_file_not_found (normpath : String → String)
    (parse : String → Except PyError Element) (reviewOf : String → String)
    (t : String) (fs : FS) (input_file output_dir : String)
    (h : fs.files (normpath input_file) = none) :
    main normpath parse reviewOf t fs input_file output_dir =
      ⟨.error (.fileNotFound (normpath input_file)), fs, 0⟩ := by
  simp [main, get_file, h]

/-- Witness for C4 on an empty file system. -/
theorem main_file_not_found_witness :
    fsEmpty.files (id "missing.py") = none ∧
    main id parseW (fun _ => "r1") "T" fsEmpty "missing.py" "out" =
      ⟨.error (.fileNotFound (id "missing.py")), fsEmpty, 0⟩ :=
  ⟨rfl, main_file_not_found id parseW (fun _ => "r1") "T" fsEmpty
    "missing.py" "out" rfl⟩

/-- C6: on a well-formed review, generate_report succeeds, the output
directory exists afterwards, the rendered report is at
output_dir/code_review.html, and a second run with different content
overwrites it. -/
theorem generate_report_writes_and_overwrites
    (parse : String → Except PyError Element)
    (t review review2 output_dir : String) (fs : FS) (root root2 : Element)
    (html html2 : String)
    (hp : parse review = .ok root) (hr : add_content_to_html t root = .ok html)
    (hp2 : parse review2 = .ok root2)
    (hr2 : add_content_to_html t root2 = .ok html2) :
    (generate_report parse t review output_dir fs).2 = .ok () ∧
    ((generate_report parse t review output_dir fs).1).files
      (joinPath output_dir "code_review.html") = some html ∧
    pathExists (generate_report parse t review output_dir fs).1 output_dir = true ∧
    ((generate_report parse t review2 output_dir
        (generate_report parse t review output_dir fs).1).1).files
      (joinPath output_dir "code_review.html") = some html2 := by
  have h1 : generate_report parse t review output_dir fs =
      (writeFile (if pathExists fs output_dir then fs else makedirs fs output_dir)
        (joinPath output_dir "code_review.html") html, .ok ()) := by
    simp [generate_report, hp, hr]
  have h2 : generate_report parse t review2 output_dir
      (generate_report parse t review output_dir fs).1 =
      (writeFile
        (if pathExists (generate_report parse t review output_dir fs).1 output_dir
         then (generate_report parse t review output_dir fs).1
         else makedirs (generate_report parse t review output_dir fs).1 output_dir)
        (joinPath output_dir "code_review.html") html2, .ok ()) := by
    simp [generate_report, hp2, hr2]
  refine ⟨by rw [h1], by rw [h1]; simp [writeFile], ?_, by rw [h2]; simp [writeFile]⟩
  rw [h1]
  cases hpe : pathExists fs output_dir with
  | true =>
    simp only [hpe, if_true]
    simp only [pathExists, Bool.or_eq_true] at hpe
    rcases hpe with hd | hf
    · simp [pathExists, writeFile, hd]
    · by_cases hde : output_dir = joinPath output_dir "code_review.html"
      · simp [pathExists, writeFile, if_pos hde]
      · simp [pathExists, writeFile, if_neg hde, hf]
  | false =>
    simp [hpe, pathExists, writeFile, makedirs]

/-- Witness for C6: two runs on an empty file system with different reviews. -/
theorem generate_report_writes_and_overwrites_witness :
    (parseW "r1" = .ok rootA ∧
     add_content_to_html "T" rootA = .ok "T<h2>General Observations</h2><ul><li>Good naming</li></ul><h2>Specific Comments</h2><ul><li><strong>line 3:</strong> fix this</li></ul><h2>Improvement Suggestions</h2><ul><li>Add tests</li></ul></div></body></html>" ∧
     parseW "r2" = .ok rootB ∧
     add_content_to_html "T" rootB = .ok "T<h2>General Observations</h2><ul><li>Better now</li></ul><h2>Specific Comments</h2><ul></ul><h2>Improvement Suggestions</h2><ul></ul></div></body></html>") ∧
    ((generate_report parseW "T" "r1" "out" fsEmpty).2 = .ok () ∧
     ((generate_report parseW "T" "r1" "out" fsEmpty).1).files
       (joinPath "out" "code_review.html") = some "T<h2>General Observations</h2><ul><li>Good naming</li></ul><h2>Specific Comments</h2><ul><li><strong>line 3:</strong> fix this</li></ul><h2>Improvement Suggestions</h2><ul><li>Add tests</li></ul></div></body></html>" ∧
     pathExists (generate_report parseW "T" "r1" "out" fsEmpty).1 "out" = true ∧
     ((generate_report parseW "T" "r2" "out"
         (generate_report parseW "T" "r1" "out" fsEmpty).1).1).files
       (joinPath "out" "code_review.html") = some "T<h2>General Observations</h2><ul><li>Better now</li></ul><h2>Specific Comments</h2><ul></ul><h2>Improvement Suggestions</h2><ul></ul></div></body></html>") :=
  ⟨⟨rfl, rfl, rfl, rfl⟩,
    generate_report_writes_and_overwrites parseW "T" "r1" "r2" "out" fsEmpty
      rootA rootB _ _ rfl rfl rfl rfl⟩

/-- C8: the verbose flag changes only the logger level; the pipeline result,
including the final file system, is identical. -/
theorem cliRun_verbose_no_effect (normpath : String → String)
    (parse : String → Except PyError Element) (reviewOf : String → String)
    (t : String) (fs : FS) (input_file output_dir : String) :
    (cliRun true normpath parse reviewOf t fs input_file output_dir).2 =
      (cliRun false normpath parse reviewOf t fs input_file output_dir).2 := rfl

/-- C10: empty elements render as the literal string None instead of failing:
every observation or suggestion without text renders as the item
"<li>None</li>" appearing in the report, and every comment renders without
failure, its item containing "<li><strong>None:</strong> " when its Location
is empty and ":</strong> None</li>" when its Feedback is empty. -/
theorem add_content_none_text (t : String) (root gen spec imp : Element)
    (hg : pyFind root "GeneralObservations" = some gen)
    (hs : pyFind root "SpecificComments" = some spec)
    (hi : pyFind root "ImprovementSuggestions" = some imp)
    (hcall : ∀ d ∈ spec.children, ∃ l f,
      pyFind d "Location" = some l ∧ pyFind d "Feedback" = some f) :
    ∃ out, add_content_to_html t root = .ok out ∧
      (∀ o ∈ gen.children, o.text = none →
        sectionItem o = "<li>None</li>" ∧ "<li>None</li>".data <:+: out.data) ∧
      (∀ o ∈ imp.children, o.text = none →
        sectionItem o = "<li>None</li>" ∧ "<li>None</li>".data <:+: out.data) ∧
      (∀ c ∈ spec.children, ∀ lc fc,
        pyFind c "Location" = some lc → pyFind c "Feedback" = some fc →
        renderComment c = .ok (commentItem lc fc) ∧
        (commentItem lc fc).data <:+: out.data ∧
        (lc.text = none →
          "<li><strong>None:</strong> ".data <:+: (commentItem lc fc).data) ∧
        (fc.text = none →
          ":</strong> None</li>".data <:+: (commentItem lc fc).data)) := by
  obtain ⟨items, hrc, hf⟩ := renderComments_ok spec.children hcall
  have hadd := add_content_ok t root gen spec imp (concatAll items) hg hs hi hrc
  refine ⟨_, hadd, ?_, ?_, ?_⟩
  · intro o hmem hot
    have hobs : sectionItem o = "<li>None</li>" := by
      rw [sectionItem, hot, show pyStr none = "None" from rfl]
      decide
    refine ⟨hobs, ?_⟩
    have h1 : ("<li>None</li>" : String).data <:+: (renderSection gen.children).data := by
      rw [← hobs]
      exact mem_concatAll_infix _ _ (List.mem_map_of_mem sectionItem hmem)
    refine h1.trans ?_
    exact ⟨(t ++ "<h2>General Observations</h2><ul>").data,
      ("</ul>" ++ "<h2>Specific Comments</h2><ul>" ++ concatAll items ++ "</ul>"
        ++ "<h2>Improvement Suggestions</h2><ul>" ++ renderSection imp.children
        ++ "</ul>" ++ "</div></body></html>").data, by simp⟩
  · intro o hmem hot
    have hobs : sectionItem o = "<li>None</li>" := by
      rw [sectionItem, hot, show pyStr none = "None" from rfl]
      decide
    refine ⟨hobs, ?_⟩
    have h1 : ("<li>None</li>" : String).data <:+: (renderSection imp.children).data := by
      rw [← hobs]
      exact mem_concatAll_infix _ _ (List.mem_map_of_mem sectionItem hmem)
    refine h1.trans ?_
    exact ⟨(t ++ "<h2>General Observations</h2><ul>" ++ renderSection gen.children
        ++ "</ul>" ++ "<h2>Specific Comments</h2><ul>" ++ concatAll items
        ++ "</ul>" ++ "<h2>Improvement Suggestions</h2><ul>").data,
      ("</ul>" ++ "</div></body></html>").data, by simp⟩
  · intro c hmem lc fc hlc hfc
    have hrcom : renderComment c = .ok (commentItem lc fc) := by
      simp [renderComment, hlc, hfc]
    have h2 : (commentItem lc fc).data <:+: (concatAll items).data :=
      renderComments_item_infix spec.children c (concatAll items)
        (commentItem lc fc) hmem hrcom hrc
    have hsub : (concatAll items).data <:+:
        ((t ++ "<h2>General Observations</h2><ul>" ++ renderSection gen.children
          ++ "</ul>"
          ++ "<h2>Specific Comments</h2><ul>" ++ concatAll items ++ "</ul>"
          ++ "<h2>Improvement Suggestions</h2><ul>"
          ++ renderSection imp.children ++ "</ul>"
          ++ "</div></body></html>")).data :=
      ⟨(t ++ "<h2>General Observations</h2><ul>" ++ renderSection gen.children
          ++ "</ul>" ++ "<h2>Specific Comments</h2><ul>").data,
        ("</ul>" ++ "<h2>Improvement Suggestions</h2><ul>"
          ++ renderSection imp.children ++ "</ul>" ++ "</div></body></html>").data,
        by simp⟩
    refine ⟨hrcom, h2.trans hsub, ?_, ?_⟩
    · intro hlct
      have hci : commentItem lc fc =
          "<li><strong>None:</strong> " ++ pyStr fc.text ++ "</li>" := by
        rw [commentItem, hlct, show pyStr none = "None" from rfl,
          show ("<li><strong>" : String) ++ "None" ++ ":</strong> " =
            "<li><strong>None:</strong> " from by decide]
      rw [hci]
      exact ⟨[], (pyStr fc.text ++ "</li>").data, by simp⟩
    · intro hfct
      have hdata : (":</strong> None</li>" : String).data =
          (":</strong> " : String).data ++ ("None" : String).data
            ++ ("</li>" : String).data := by decide
      have hci : commentItem lc fc =
          "<li><strong>" ++ pyStr lc.text ++ ":</strong> None</li>" := by
        refine String.ext ?_
        rw [commentItem, hfct]
        simp only [String.data_append, hdata, List.append_assoc, pyStr]
        congr 2
      rw [hci]
      refine ⟨("<li><strong>" ++ pyStr lc.text).data, [], ?_⟩
      simp [hdata]

/-- Witness for C10 on a document with an empty observation and a comment with
an empty Location. -/
theorem add_content_none_text_witness :
    (pyFind rootNones "GeneralObservations" = some genN ∧
     pyFind rootNones "SpecificComments" = some specN ∧
     pyFind rootNones "ImprovementSuggestions" = some impA ∧
     (∀ d ∈ specN.children, ∃ l f,
        pyFind d "Location" = some l ∧ pyFind d "Feedback" = some f)) ∧
    (∃ out, add_content_to_html "T" rootNones = .ok out ∧
      (∀ o ∈ genN.children, o.text = none →
        sectionItem o = "<li>None</li>" ∧ "<li>None</li>".data <:+: out.data) ∧
      (∀ o ∈ impA.children, o.text = none →
        sectionItem o = "<li>None</li>" ∧ "<li>None</li>".data <:+: out.data) ∧
      (∀ c ∈ specN.children, ∀ lc fc,
        pyFind c "Location" = some lc → pyFind c "Feedback" = some fc →
        renderComment c = .ok (commentItem lc fc) ∧
        (commentItem lc fc).data <:+: out.data ∧
        (lc.text = none →
          "<li><strong>None:</strong> ".data <:+: (commentItem lc fc).data) ∧
        (fc.text = none →
          ":</strong> None</li>".data <:+: (commentItem lc fc).data))) := by
  have hcall : ∀ d ∈ specN.children, ∃ l f,
      pyFind d "Location" = some l ∧ pyFind d "Feedback" = some f := by
    intro d hd
    simp [specN, Element.children] at hd
    subst hd
    exact ⟨locNone, fbE, rfl, rfl⟩
  exact ⟨⟨rfl, rfl, rfl, hcall⟩,
    add_content_none_text "T" rootNones genN specN impA rfl rfl rfl hcall⟩

end GptReviewer
